import Mathlib

/-!
Formal model of `mp3ctl.py` (raehik/mp3ctl), a script that synchronizes a
music library to an MP3 player and submits its scrobble log to a remote
tracking service.  Strings from the Python code are modelled as `List Char`;
shell commands are modelled by their exit codes, supplied by an environment
record; fatal `fail()` calls and uncaught Python exceptions are modelled as
terminal outcomes of a command run.
-/

/- ## Generic character-list utilities -/

/-- Python `line.rstrip("\r\n")`: remove trailing carriage returns and
newlines. -/
def rstripCRLF (l : List Char) : List Char :=
  (l.reverse.dropWhile (fun c => c = '\r' || c = '\n')).reverse

/-- Python `re.split(r"\t", s)` for a plain one-character separator:
split on every tab, keeping empty fields.  Always returns at least one
field. -/
def splitTab : List Char → List (List Char)
  | [] => [[]]
  | c :: rest =>
    if c = '\t' then [] :: splitTab rest
    else
      match splitTab rest with
      | f :: fs => (c :: f) :: fs
      | [] => [[c]]

/-- Characters Python's `int()` strips from both ends of its argument
(ASCII whitespace; unicode spaces are out of scope of this model). -/
def isPySpace (c : Char) : Bool :=
  c = ' ' || c = '\t' || c = '\n' || c = '\r' || c = '\x0b' || c = '\x0c'

/-- Body of a Python integer literal after the first digit: digits with
single underscores allowed between digits. -/
def validDigitsAux : List Char → Bool
  | [] => true
  | '_' :: c :: rest => c.isDigit && validDigitsAux rest
  | c :: rest => c.isDigit && validDigitsAux rest

/-- A nonempty run of decimal digits with single underscores allowed
between digits (Python 3 `int()` digit grammar). -/
def validDigits : List Char → Bool
  | [] => false
  | c :: rest => c.isDigit && validDigitsAux rest

/-- Numeric value of a digit/underscore run (underscores skipped). -/
def digitsToNat (l : List Char) : Nat :=
  l.foldl (fun acc c => if c = '_' then acc else acc * 10 + (c.toNat - '0'.toNat)) 0

/-- Python `int(s)` on a string: strip whitespace, optional sign, digits
with underscores; `none` models a `ValueError`. -/
def pyInt (l : List Char) : Option Int :=
  let s := ((l.dropWhile isPySpace).reverse.dropWhile isPySpace).reverse
  match s with
  | '+' :: rest => if validDigits rest then some (digitsToNat rest : Int) else none
  | '-' :: rest => if validDigits rest then some (-(digitsToNat rest : Int)) else none
  | rest => if validDigits rest then some (digitsToNat rest : Int) else none

/-- Python `os.path.join(a, b)` (POSIX, separator `/`). -/
def pyJoin2 (a b : List Char) : List Char :=
  if b.head? = some '/' then b
  else if a = [] || a.getLast? = some '/' then a ++ b
  else a ++ '/' :: b

/-- Python `s.rfind(c)`: index of the last occurrence of `c`, `-1` when
absent (as used by `os.path.splitext`). -/
def rfindI (c : Char) : List Char → Int
  | [] => -1
  | a :: rest =>
    let r := rfindI c rest
    if 0 ≤ r then r + 1 else if a == c then 0 else -1

/- ## The lyric-renaming regex, `re.match(r"(.*) - (.*).txt", f)`
   (from `cmd_cp_lyrics`, mp3ctl.py lines 358-367).

   Python's `(.*)` groups are greedy: group 1 takes the longest prefix
   such that the remainder still matches `" - (.*).txt"`, and then group 2
   takes the longest string such that one further character followed by
   the literal letters `txt` still matches (the `.` in `.txt` is an
   unescaped wildcard, and `re.match` does not anchor the end).  Without
   the DOTALL flag the wildcard `.` does not match a newline, so both
   groups and the wildcard position must be newline-free; only the
   unmatched tail after the final `txt` may contain newlines. -/

/-- Does the list start with the literal letters `txt`? -/
def txtAt : List Char → Bool
  | a :: b :: c :: _ => (a == 't') && (b == 'x') && (c == 't')
  | _ => false

/-- Largest index `i` such that `txt` occurs at `i` and the first `i`
characters are newline-free (greedy search for the `(.)txt` tail of the
pattern: everything the group and the wildcard consume must avoid
newlines). -/
def lastTxtIdx : List Char → Option Nat
  | [] => none
  | c :: rest =>
    match (if c = '\n' then none else lastTxtIdx rest) with
    | some i => some (i + 1)
    | none => if txtAt (c :: rest) then some 0 else none

/-- Greedy group 2 of the regex on the text after the separator: the
longest `b` with `rest = b ++ ch :: "txt" ++ s`.  `none` when the
`(.)txt` tail cannot match. -/
def group2Title (r : List Char) : Option (List Char) :=
  match lastTxtIdx r with
  | some (i + 1) => some (r.take i)
  | _ => none

/-- Does the list start with the literal separator `" - "`? -/
def sepAt : List Char → Bool
  | a :: b :: c :: _ => (a == ' ') && (b == '-') && (c == ' ')
  | _ => false

/-- A separator occurrence at the head after which the rest of the pattern
can still match (what greedy backtracking on group 1 tests). -/
def sepQual (l : List Char) : Bool :=
  sepAt l && (group2Title (l.drop 3)).isSome

/-- Largest index of a qualifying `" - "` occurrence reachable by a
newline-free group 1: the split point the greedy group 1 selects (group 1
cannot consume a newline, so occurrences beyond the first newline are
unreachable). -/
def lastSepIdx : List Char → Option Nat
  | [] => none
  | c :: rest =>
    match (if c = '\n' then none else lastSepIdx rest) with
    | some i => some (i + 1)
    | none => if sepQual (c :: rest) then some 0 else none

/-- Group 2 (`track_title`) of `re.match(r"(.*) - (.*).txt", f)`, or
`none` when the filename does not match. -/
def matchTitle (f : List Char) : Option (List Char) :=
  match lastSepIdx f with
  | some j => group2Title (f.drop (j + 3))
  | none => none

/-- The lyric renaming step of `cmd_cp_lyrics`: a matching file
`f` is moved to `match[2] + ".txt"`; a non-matching file is left as is. -/
def renameLyric (f : List Char) : List Char :=
  match matchTitle f with
  | some t => t ++ ['.', 't', 'x', 't']
  | none => f

/-- Predicate: `" - "` occurs somewhere in the list. -/
def hasSep : List Char → Bool
  | [] => false
  | c :: rest => sepAt (c :: rest) || hasSep rest

/-- Predicate: `txt` occurs somewhere in the list. -/
def hasTxt : List Char → Bool
  | [] => false
  | c :: rest => txtAt (c :: rest) || hasTxt rest

/- ## Playlist line rewriting (`__edit_playlist_line`, mp3ctl.py 276-285) -/

/-- Constant `MP3Ctl.PL_REFMT_PREFIX`, the device-relative path prepended to every
playlist track. -/
def plRefmtRoot : List Char := "/<microSD1>/music".toList

/-- The substitute extension appended for converted tracks. -/
def oggExt : List Char := ['.', 'o', 'g', 'g']

/-- Python `os.path.splitext(p)` (POSIX): split at the last `.` that comes
after the last `/`, provided at least one character between them is not a
`.` (so hidden-file-style names such as `.flac` have no extension). -/
def splitext (p : List Char) : List Char × List Char :=
  if rfindI '/' p < rfindI '.' p then
    if ((p.drop ((rfindI '/' p + 1).toNat)).take
        ((rfindI '.' p - rfindI '/' p - 1).toNat)).any (fun ch => ch != '.') then
      (p.take (rfindI '.' p).toNat, p.drop (rfindI '.' p).toNat)
    else (p, [])
  else (p, [])

/-- Model of `__edit_playlist_line`: prepend the device prefix to the track, then
if the `splitext` extension without its dot is in `converted_exts`,
replace it by `.ogg`. -/
def editPlaylistLine (convertedExts : List (List Char)) (track : List Char) : List Char :=
  let t := plRefmtRoot ++ '/' :: track
  let pr := splitext t
  if convertedExts.contains (pr.2.drop 1) then pr.1 ++ oggExt else t

/-- Modelled from the spec's words (for comparison only): "the text after
the final `.`" of a line, with no hidden-file exception. -/
def extAfterFinalDotSpec (t : List Char) : Option (List Char) :=
  let di := rfindI '.' t
  if 0 ≤ di then some (t.drop (di.toNat + 1)) else none

/- ## Scrobble-log parsing and submission
   (`__submit_scrobble_log`, mp3ctl.py 503-536) -/

/-- Unhandled Python exceptions the parsing loop can raise.
`indexError`, `valueError` and `typeError` are the literal Python
classes raised by list indexing, `int()` on a non-integer string, and
`int(None)`.  `fixTsError` is the exception `datetime.utcfromtimestamp`
raises inside `__fix_timestamp` when the epoch falls outside the
representable `datetime` range (years 1-9999): concretely a `ValueError`
for moderately out-of-range years, and `OSError`/`OverflowError` at
64-bit platform extremes; no claim depends on that distinction, so the
model keeps one constructor for all of them. -/
inductive PyErr
  | indexError
  | valueError
  | typeError
  | fixTsError
deriving DecidableEq

/-- Errors terminating `__submit_scrobble_log`: an unhandled Python
exception, or the `fail("misformed scrobble log", ERR_SCROBBLER)` call. -/
inductive ScrobbleErr
  | py (e : PyErr)
  | scrobbler
deriving DecidableEq

deriving instance DecidableEq for Except

/-- One parsed scrobble event.  Fields empty in the source are `none`
(the code maps `""` to `None`). -/
structure Track where
  artist : Option (List Char)
  album : Option (List Char)
  title : Option (List Char)
  trackNum : Option (List Char)
  duration : Option (List Char)
  status : Option (List Char)
  timestamp : Int
  mbid : Option (List Char)
deriving DecidableEq

/-- Python `None if p == "" else p`. -/
def toField (p : List Char) : Option (List Char) :=
  if p = [] then none else some p

/-- Zero-based list indexing (the partial operation behind `parts[i]`). -/
def pyIndex {α : Type} : List α → Nat → Option α
  | [], _ => none
  | a :: _, 0 => some a
  | _ :: rest, n + 1 => pyIndex rest n

/-- Model of `parts[i]`: Python list indexing, raising `IndexError` out of range. -/
def getPart (parts : List (Option (List Char))) (i : Nat) : Except PyErr (Option (List Char)) :=
  match pyIndex parts i with
  | some f => .ok f
  | none => .error .indexError

/-- Smallest epoch `datetime.utcfromtimestamp` accepts
(0001-01-01 00:00:00 UTC). -/
def utcTsMin : Int := -62135596800

/-- Largest epoch `datetime.utcfromtimestamp` accepts
(9999-12-31 23:59:59 UTC). -/
def utcTsMax : Int := 253402300799

/-- Does `datetime.utcfromtimestamp` succeed on this epoch?  Inside the
range, `strftime("%s")` also succeeds (verified across the whole range on
the script's glibc/Linux target platform), so `__fix_timestamp` returns
normally exactly on this range. -/
def fixTsInRange (v : Int) : Bool :=
  utcTsMin ≤ v && v ≤ utcTsMax

/-- Model of `self.__fix_timestamp(int(parts[6]))`: `TypeError` on `None`
(an empty field), `ValueError` on a non-integer string from `int()`, and
the `utcfromtimestamp` exception (`fixTsError`) on an integer outside the
`datetime` range.  On success it returns the parsed epoch; the timezone
adjustment `strftime("%s")` applies to it is the caller's `fixTs`. -/
def parseTs (tsField : Option (List Char)) : Except PyErr Int :=
  match tsField with
  | none => .error .typeError
  | some s =>
    match pyInt s with
    | some v => if fixTsInRange v then .ok v else .error .fixTsError
    | none => .error .valueError

/-- Build the track dict from the split fields, in the evaluation order of
the Python dict literal: fields 0-5, then `__fix_timestamp(int(parts[6]))`
(which can raise before field 7 is ever indexed), then field 7.  The
first raised exception wins. -/
def parseParts (fixTs : Int → Int) (parts : List (Option (List Char))) : Except PyErr Track :=
  match getPart parts 0 with
  | .error e => .error e
  | .ok artist =>
  match getPart parts 1 with
  | .error e => .error e
  | .ok album =>
  match getPart parts 2 with
  | .error e => .error e
  | .ok title =>
  match getPart parts 3 with
  | .error e => .error e
  | .ok trackNum =>
  match getPart parts 4 with
  | .error e => .error e
  | .ok duration =>
  match getPart parts 5 with
  | .error e => .error e
  | .ok status =>
  match getPart parts 6 with
  | .error e => .error e
  | .ok tsField =>
  match parseTs tsField with
  | .error e => .error e
  | .ok ts =>
  match getPart parts 7 with
  | .error e => .error e
  | .ok mbid =>
    .ok { artist, album, title, trackNum, duration, status, timestamp := fixTs ts, mbid }

/-- Parse one scrobble-log line: strip the trailing newline, split on
tabs, map empty fields to `None`, and build the track.  `fixTs` models
the timezone adjustment `__fix_timestamp` applies to an in-range epoch (a
value irrelevant to the claims); the range failures of
`datetime.utcfromtimestamp` are raised in `parseTs`. -/
def parseLine (fixTs : Int → Int) (line : List Char) : Except PyErr Track :=
  parseParts fixTs ((splitTab (rstripCRLF line)).map toField)

/-- Python `line.startswith("#")`. -/
def isComment : List Char → Bool
  | c :: _ => c == '#'
  | [] => false

/-- The loop of `__submit_scrobble_log` over the remaining lines, carrying
the collected tracks and the two counters.  On success it returns the
batch handed to `scrobble_many` (in collection order) together with
`listened_count` and `tracks_count`; an error models `fail()` or an
uncaught exception, both of which happen before `scrobble_many` is
called, so nothing is submitted.  (`tracks_count` is incremented here
after parsing instead of before; the difference is observable only on
error paths, where the count is discarded.) -/
def submitScrobbleLogAux (fixTs : Int → Int) :
    List (List Char) → List Track → Nat → Nat →
    Except ScrobbleErr (List Track × Nat × Nat)
  | [], tracks, tc, lc => .ok (tracks, lc, tc)
  | line :: rest, tracks, tc, lc =>
    if isComment line then submitScrobbleLogAux fixTs rest tracks tc lc
    else
      match parseLine fixTs line with
      | .error e => .error (.py e)
      | .ok t =>
        if t.status = some ['S'] then submitScrobbleLogAux fixTs rest tracks (tc + 1) lc
        else if t.status = some ['L'] then
          submitScrobbleLogAux fixTs rest (tracks ++ [t]) (tc + 1) (lc + 1)
        else .error .scrobbler

/-- Model of `__submit_scrobble_log` on the lines of one log file. -/
def submitScrobbleLog (fixTs : Int → Int) (lines : List (List Char)) :
    Except ScrobbleErr (List Track × Nat × Nat) :=
  submitScrobbleLogAux fixTs lines [] 0 0

/-- Is the parsed status one of the two known codes? -/
def statusOkB (t : Track) : Bool :=
  (t.status == some ['S']) || (t.status == some ['L'])

/-- A line the loop passes without error: a comment, or a line that parses
(8 tab fields and an integer timestamp accepted by `__fix_timestamp`)
with a recognized status code. -/
def lineOk (fixTs : Int → Int) (l : List Char) : Bool :=
  isComment l ||
    (match parseLine fixTs l with
     | .ok t => statusOkB t
     | .error _ => false)

/-- A non-comment line that parses but carries an unrecognized status. -/
def lineBadStatus (fixTs : Int → Int) (l : List Char) : Bool :=
  !isComment l &&
    (match parseLine fixTs l with
     | .ok t => !statusOkB t
     | .error _ => false)

/-- Specification-side description of the submitted batch: the parsed
tracks of the non-comment lines with `listened` status, in log order. -/
def listenedOf (fixTs : Int → Int) (lines : List (List Char)) : List Track :=
  lines.filterMap (fun l =>
    if isComment l then none
    else
      match parseLine fixTs l with
      | .ok t => if t.status = some ['L'] then some t else none
      | .error _ => none)

/-- Number of non-comment lines of a log (`tracks_count`). -/
def nonCommentCount (lines : List (List Char)) : Nat :=
  (lines.filter (fun l => !isComment l)).length

/- ## Device mount state (`MountDevice`, mp3ctl.py 45-79) -/

/-- The error of a failed `udisksctl mount`/`unmount` call (the code
raises a bare `Exception` carrying a message; the spec calls it
`DeviceError`). -/
inductive DevErr
  | mountFailed
  | unmountFailed
deriving DecidableEq

/-- Model of `MountDevice.unmount` acting on the stored mountpoint: run
`udisksctl unmount` (exit code `rc`); on a non-zero exit the exception is
raised and `__reset_mountpoint` is never reached, so the in-memory
mountpoint is returned unchanged; only on success is it reset to `""`. -/
def unmountDevice (mp : List Char) (rc : Int) : Option DevErr × List Char :=
  if rc ≠ 0 then (some .unmountFailed, mp) else (none, [])

/- ## Command runs as a small state machine
   (the `cmd_*` methods of `MP3Ctl`).

   An `Env` fixes the behaviour of the outside world (exit codes of the
   external commands, the mountpoint reported by `udisksctl info`, the
   directory listings used by the podcast globs, the device scrobble log).
   An `Out` is the result of running one command: the sequence of
   observable events, the final in-memory state, and whether the process
   terminated fatally (`fail()` exits with a code; an uncaught Python
   exception also aborts the process). -/

/-- The sub-commands of mp3ctl. -/
inductive CmdName
  | processScrobbles
  | cpPlaylists
  | cpLyrics
  | cpMusic
  | cpPodcasts
deriving DecidableEq

/-- How a run terminated fatally: `fail()` with an exit code, or an
uncaught Python exception. -/
inductive ExitKind
  | code (n : Nat)
  | exc
deriving DecidableEq

/-- Observable events of a command run.  Mount/unmount events are emitted
on success of the external command; `rsync`/`rmtree` events record the
attempt together with the destination path used. -/
inductive Ev
  | enter (c : CmdName)
  | musctl
  | mountMedia
  | unmountMedia
  | mountSystem
  | unmountSystem
  | sshfsMount
  | sshfsUnmount
  | rsync (dst : List Char)
  | rmtree (p : List Char)
  | submitLog
  | failExit (e : ExitKind)
deriving DecidableEq

/-- In-memory state of the two `MountDevice` objects and the sshfs
podcast-archive mount. -/
structure St where
  mediaMounted : Bool
  mediaMp : List Char
  sysMounted : Bool
  sysMp : List Char
  sshfsMounted : Bool
deriving DecidableEq

/-- State at program start: devices constructed with empty mountpoints. -/
def initSt : St :=
  { mediaMounted := false, mediaMp := [], sysMounted := false, sysMp := [], sshfsMounted := false }

/-- Configured locations used by the modelled commands (the `media_loc`
device-side entries and the converted-extensions list). -/
structure Config where
  devPlaylists : List Char
  devLyrics : List Char
  devMusic : List Char
  devPodcasts : List Char
  convertedExts : List (List Char)

/-- Behaviour of the outside world during one run. -/
structure Env where
  musctlRc : Int
  mountMediaRc : Int
  mediaInfoRc : Int
  mediaMpVal : List Char
  unmountMediaRc : Int
  mountSystemRc : Int
  sysInfoRc : Int
  sysMpVal : List Char
  unmountSystemRc : Int
  rsyncRc : Int
  sshfsRc : Int
  fusermountRc : Int
  podcastsDirExists : Bool
  rmtreeRaises : Bool
  scrobbleLogPresent : Bool
  logLines : List (List Char)
  episodeFiles : List (List Char)
  dToday : List Char
  dYest : List Char
  dTwoDays : List Char

/-- Result of running one command. -/
structure Out where
  trace : List Ev
  st : St
  exit : Option ExitKind
deriving DecidableEq

/-- Sequencing: a `fail()`/exception aborts the process, so nothing after
it runs. -/
def Out.seq (o : Out) (f : St → Out) : Out :=
  match o.exit with
  | some _ => o
  | none =>
    let o2 := f o.st
    { trace := o.trace ++ o2.trace, st := o2.st, exit := o2.exit }

/-- Emit the entry of a sub-command. -/
def opEnter (c : CmdName) (st : St) : Out :=
  { trace := [.enter c], st := st, exit := none }

/-- Model of `self.fail(msg, n)`: print and exit with code `n`. -/
def opFail (n : Nat) (st : St) : Out :=
  { trace := [.failExit (.code n)], st := st, exit := some (.code n) }

/-- An uncaught Python exception aborting the process. -/
def opRaise (st : St) : Out :=
  { trace := [.failExit .exc], st := st, exit := some .exc }

/-- The `musctl maintenance` check at the top of `cmd_cp_playlists`
(`ERR_MUSCTL = 5`). -/
def opMusctl (env : Env) (st : St) : Out :=
  if env.musctlRc ≠ 0 then
    { trace := [.musctl, .failExit (.code 5)], st := st, exit := some (.code 5) }
  else { trace := [.musctl], st := st, exit := none }

/-- Model of `MountDevice.mount` on the media device followed by
`__set_mountpoint`; a non-zero exit of either shell command raises. -/
def mediaMount (env : Env) (st : St) : Out :=
  if env.mountMediaRc ≠ 0 then opRaise st
  else if env.mediaInfoRc ≠ 0 then opRaise { st with mediaMounted := true }
  else
    { trace := [.mountMedia],
      st := { st with mediaMounted := true, mediaMp := env.mediaMpVal }, exit := none }

/-- Model of `MountDevice.unmount` on the media device (the per-device instance of
`unmountDevice`): on failure the exception propagates and the mountpoint
is kept. -/
def mediaUnmount (env : Env) (st : St) : Out :=
  if env.unmountMediaRc ≠ 0 then opRaise st
  else
    { trace := [.unmountMedia],
      st := { st with mediaMounted := false, mediaMp := [] }, exit := none }

/-- Model of `MountDevice.mount` on the system partition. -/
def systemMount (env : Env) (st : St) : Out :=
  if env.mountSystemRc ≠ 0 then opRaise st
  else if env.sysInfoRc ≠ 0 then opRaise { st with sysMounted := true }
  else
    { trace := [.mountSystem],
      st := { st with sysMounted := true, sysMp := env.sysMpVal }, exit := none }

/-- Model of `MountDevice.unmount` on the system partition. -/
def systemUnmount (env : Env) (st : St) : Out :=
  if env.unmountSystemRc ≠ 0 then opRaise st
  else
    { trace := [.unmountSystem],
      st := { st with sysMounted := false, sysMp := [] }, exit := none }

/-- Model of `__podcasts_mount_sshfs`: fail if the archive directory already
exists, then `sshfs` (`ERR_DEVICE = 1`). -/
def sshfsMountOp (env : Env) (st : St) : Out :=
  if env.podcastsDirExists then opFail 1 st
  else if env.sshfsRc ≠ 0 then opFail 1 st
  else { trace := [.sshfsMount], st := { st with sshfsMounted := true }, exit := none }

/-- Model of `__podcasts_unmount_sshfs`: `fusermount -u` then `rmdir`. -/
def sshfsUnmountOp (env : Env) (st : St) : Out :=
  if env.fusermountRc ≠ 0 then opFail 1 st
  else { trace := [.sshfsUnmount], st := { st with sshfsMounted := false }, exit := none }

/-- Model of `__cp_dir_contents` and `__cp_files`: one rsync invocation to `dst`;
a non-zero exit is fatal (`ERR_RSYNC = 6`). -/
def opRsync (env : Env) (dst : List Char) (st : St) : Out :=
  if env.rsyncRc ≠ 0 then
    { trace := [.rsync dst, .failExit (.code 6)], st := st, exit := some (.code 6) }
  else { trace := [.rsync dst], st := st, exit := none }

/-- Model of `shutil.rmtree(p)`; raises (e.g. `FileNotFoundError`) when the
environment says so. -/
def opRmtree (env : Env) (p : List Char) (st : St) : Out :=
  if env.rmtreeRaises then
    { trace := [.rmtree p, .failExit .exc], st := st, exit := some .exc }
  else { trace := [.rmtree p], st := st, exit := none }

/-- Model of `cmd_cp_playlists`: musctl check, staging and line rewriting (pure,
traceless), then mount, rsync to `join(mountpoint, dev-playlists)`,
unmount. -/
def cmdCpPlaylists (cfg : Config) (env : Env) (st : St) : Out :=
  ((((opEnter .cpPlaylists st).seq (opMusctl env)).seq (mediaMount env)).seq
    (fun st2 => opRsync env (pyJoin2 st2.mediaMp cfg.devPlaylists) st2)).seq
    (mediaUnmount env)

/-- Model of `cmd_cp_lyrics`: filtering and renaming (pure, traceless), then
mount, rsync, unmount. -/
def cmdCpLyrics (cfg : Config) (env : Env) (st : St) : Out :=
  (((opEnter .cpLyrics st).seq (mediaMount env)).seq
    (fun st2 => opRsync env (pyJoin2 st2.mediaMp cfg.devLyrics) st2)).seq
    (mediaUnmount env)

/-- Model of `cmd_cp_music`: mount, rsync, unmount. -/
def cmdCpMusic (cfg : Config) (env : Env) (st : St) : Out :=
  (((opEnter .cpMusic st).seq (mediaMount env)).seq
    (fun st2 => opRsync env (pyJoin2 st2.mediaMp cfg.devMusic) st2)).seq
    (mediaUnmount env)

/-- Model of `cmd_process_scrobbles` as invoked with no file arguments (the
maintenance path): mount the system partition, archive the device log
(`FileNotFoundError` means no log: unmount and return), unmount, then
parse and submit the archived log.  A `ScrobblerError` is
`fail(..., ERR_SCROBBLER = 3)`; an unhandled parse exception aborts. -/
def cmdProcessScrobbles (fixTs : Int → Int) (env : Env) (st : St) : Out :=
  ((opEnter .processScrobbles st).seq (systemMount env)).seq (fun st2 =>
    if env.scrobbleLogPresent then
      (systemUnmount env st2).seq (fun st3 =>
        match submitScrobbleLog fixTs env.logLines with
        | .ok _ => { trace := [.submitLog], st := st3, exit := none }
        | .error .scrobbler => opFail 3 st3
        | .error (.py _) => opRaise st3)
    else systemUnmount env st2)

/-- Relative destination directory of the one configured podcast. -/
def nhkSub : List Char := "nhk-radio-news".toList

/-- The podcast episode selection of `cmd_cp_podcasts`: filenames
matching one of the three date-prefix globs (today, yesterday, two days
ago).  Within one glob call the filesystem order is unspecified; we use
listing order. -/
def selectedEpisodes (env : Env) : List (List Char) :=
  env.episodeFiles.filter (fun f => env.dToday.isPrefixOf f) ++
    env.episodeFiles.filter (fun f => env.dYest.isPrefixOf f) ++
    env.episodeFiles.filter (fun f => env.dTwoDays.isPrefixOf f)

/-- Model of `cmd_cp_podcasts`: mount the sshfs archive, compute the device-side
destination `join(media.get_mountpoint(), dev-podcasts, "nhk-radio-news")`
from the *current* (pre-mount) mountpoint, select episodes by date glob;
if none are selected, unmount the archive and return successfully without
mounting the media device; otherwise mount, `rmtree` the destination,
rsync the selection to it, unmount, and unmount the archive. -/
def cmdCpPodcasts (cfg : Config) (env : Env) (st : St) : Out :=
  (opEnter .cpPodcasts st).seq (fun st1 =>
    (sshfsMountOp env st1).seq (fun st2 =>
      let p1dest := pyJoin2 (pyJoin2 st2.mediaMp cfg.devPodcasts) nhkSub
      if selectedEpisodes env = [] then sshfsUnmountOp env st2
      else
        ((((mediaMount env st2).seq (opRmtree env p1dest)).seq
          (opRsync env p1dest)).seq (mediaUnmount env)).seq
          (sshfsUnmountOp env)))

/-- Model of `cmd_maintenance`: process-scrobbles, then cp-playlists, cp-lyrics,
cp-music; each `fail()` exits the process, so later steps only run when
the earlier ones succeed. -/
def cmdMaintenance (fixTs : Int → Int) (cfg : Config) (env : Env) (st : St) : Out :=
  (((cmdProcessScrobbles fixTs env st).seq (cmdCpPlaylists cfg env)).seq
    (cmdCpLyrics cfg env)).seq (cmdCpMusic cfg env)

/-- The sub-commands a run entered, in order. -/
def entersOf (o : Out) : List CmdName :=
  o.trace.filterMap (fun e => match e with | .enter c => some c | _ => none)

/-- A sample configuration for concrete runs. -/
def cfg0 : Config :=
  { devPlaylists := "Playlists".toList
    devLyrics := "Lyrics".toList
    devMusic := "Music".toList
    devPodcasts := "Podcasts".toList
    convertedExts := ["flac".toList] }

/-- An environment in which every external command succeeds and the
device carries no scrobble log. -/
def envOk : Env :=
  { musctlRc := 0
    mountMediaRc := 0
    mediaInfoRc := 0
    mediaMpVal := "/run/media/sd".toList
    unmountMediaRc := 0
    mountSystemRc := 0
    sysInfoRc := 0
    sysMpVal := "/run/media/sys".toList
    unmountSystemRc := 0
    rsyncRc := 0
    sshfsRc := 0
    fusermountRc := 0
    podcastsDirExists := false
    rmtreeRaises := false
    scrobbleLogPresent := false
    logLines := []
    episodeFiles := []
    dToday := "20261012".toList
    dYest := "20261011".toList
    dTwoDays := "20261010".toList }

/-- Environment `envOk` with the rsync mirror failing (exit code 1). -/
def envRsyncFail : Env := { envOk with rsyncRc := 1 }

/- ## Lemmas on the lyric-renaming regex model -/

theorem sepAt_cons3 (a b c : Char) (r : List Char) :
    sepAt (a :: b :: c :: r) = ((a == ' ') && (b == '-') && (c == ' ')) := rfl

theorem txtAt_cons3 (a b c : Char) (r : List Char) :
    txtAt (a :: b :: c :: r) = ((a == 't') && (b == 'x') && (c == 't')) := rfl

theorem sepAt_false_of_fst {a : Char} (h : a ≠ ' ') (r : List Char) :
    sepAt (a :: r) = false := by
  match r with
  | [] => rfl
  | [b] => rfl
  | b :: c :: r' => simp [sepAt_cons3, h]

theorem sepAt_false_of_snd (a : Char) {b : Char} (h : b ≠ '-') (r : List Char) :
    sepAt (a :: b :: r) = false := by
  match r with
  | [] => rfl
  | c :: r' => simp [sepAt_cons3, h]

theorem sepAt_false_of_thd (a b : Char) {c : Char} (h : c ≠ ' ') (r : List Char) :
    sepAt (a :: b :: c :: r) = false := by
  simp [sepAt_cons3, h]

theorem hasTxt_cons_false {c : Char} {rest : List Char} (h : hasTxt (c :: rest) = false) :
    txtAt (c :: rest) = false ∧ hasTxt rest = false := by
  simpa [hasTxt, Bool.or_eq_false_iff] using h

theorem hasSep_cons_false {c : Char} {rest : List Char} (h : hasSep (c :: rest) = false) :
    sepAt (c :: rest) = false ∧ hasSep rest = false := by
  simpa [hasSep, Bool.or_eq_false_iff] using h

theorem lastTxtIdx_append_txt (b : List Char) (h : hasTxt b = false)
    (hnl : '\n' ∉ b) :
    lastTxtIdx (b ++ ['.', 't', 'x', 't']) = some (b.length + 1) := by
  induction b with
  | nil => decide
  | cons c b ih =>
    obtain ⟨h1, h2⟩ := hasTxt_cons_false h
    have hc : ¬(c = '\n') := fun hcc => hnl (by rw [hcc]; exact List.mem_cons_self _ _)
    have hnl2 : '\n' ∉ b := fun hm => hnl (List.mem_cons_of_mem _ hm)
    simp [lastTxtIdx, List.cons_append, hc, ih h2 hnl2]

theorem group2Title_append_txt (b : List Char) (h : hasTxt b = false)
    (hnl : '\n' ∉ b) :
    group2Title (b ++ ['.', 't', 'x', 't']) = some b := by
  simp only [group2Title, lastTxtIdx_append_txt b h hnl]
  rw [List.take_left b ['.', 't', 'x', 't']]

theorem lastSepIdx_eq_none (l : List Char) (h : hasSep l = false) :
    lastSepIdx l = none := by
  induction l with
  | nil => rfl
  | cons c rest ih =>
    obtain ⟨h1, h2⟩ := hasSep_cons_false h
    simp [lastSepIdx, ih h2, sepQual, h1]

theorem hasSep_append_txt (b : List Char) (h : hasSep b = false) :
    hasSep (b ++ ['.', 't', 'x', 't']) = false := by
  induction b with
  | nil => decide
  | cons c b ih =>
    obtain ⟨h1, h2⟩ := hasSep_cons_false h
    simp only [List.cons_append, hasSep, Bool.or_eq_false_iff]
    refine ⟨?_, ih h2⟩
    match b with
    | [] => exact sepAt_false_of_snd c (by decide) _
    | [d] => exact sepAt_false_of_thd c d (by decide) _
    | d :: e :: b' => simpa [sepAt_cons3] using h1

theorem hasSep_sepTail_false (b : List Char) (hsp : hasSep (' ' :: b) = false) :
    hasSep ('-' :: ' ' :: (b ++ ['.', 't', 'x', 't'])) = false := by
  obtain ⟨hs1, hs2⟩ := hasSep_cons_false hsp
  simp only [hasSep, Bool.or_eq_false_iff]
  refine ⟨sepAt_false_of_fst (by decide) _, ?_, hasSep_append_txt b hs2⟩
  match b with
  | [] => exact sepAt_false_of_snd ' ' (by decide) _
  | [d] => exact sepAt_false_of_thd ' ' d (by decide) _
  | d :: e :: b' => simpa [sepAt_cons3] using hs1

theorem lastSepIdx_decomp (a b : List Char)
    (hsep : hasSep (' ' :: b) = false) (htxt : hasTxt b = false)
    (hnla : '\n' ∉ a) (hnlb : '\n' ∉ b) :
    lastSepIdx (a ++ ' ' :: '-' :: ' ' :: (b ++ ['.', 't', 'x', 't'])) = some a.length := by
  induction a with
  | nil =>
    have hnone : lastSepIdx ('-' :: ' ' :: (b ++ ['.', 't', 'x', 't'])) = none :=
      lastSepIdx_eq_none _ (hasSep_sepTail_false b hsep)
    have hstep : lastSepIdx (' ' :: '-' :: ' ' :: (b ++ ['.', 't', 'x', 't'])) =
        match (if (' ' : Char) = '\n' then none
               else lastSepIdx ('-' :: ' ' :: (b ++ ['.', 't', 'x', 't']))) with
        | some i => some (i + 1)
        | none =>
          if sepQual (' ' :: '-' :: ' ' :: (b ++ ['.', 't', 'x', 't'])) then some 0
          else none := rfl
    rw [List.nil_append, hstep, if_neg (show ¬((' ' : Char) = '\n') by decide), hnone]
    simp [sepQual, sepAt_cons3, group2Title_append_txt b htxt hnlb]
  | cons c a ih =>
    have hc : ¬(c = '\n') := fun hcc => hnla (by rw [hcc]; exact List.mem_cons_self _ _)
    have hnla2 : '\n' ∉ a := fun hm => hnla (List.mem_cons_of_mem _ hm)
    simp [lastSepIdx, List.cons_append, hc, ih hnla2]

theorem matchTitle_decomp (a b : List Char)
    (hsep : hasSep (' ' :: b) = false) (htxt : hasTxt b = false)
    (hnla : '\n' ∉ a) (hnlb : '\n' ∉ b) :
    matchTitle (a ++ ' ' :: '-' :: ' ' :: (b ++ ['.', 't', 'x', 't'])) = some b := by
  have hdrop : (a ++ ' ' :: '-' :: ' ' :: (b ++ ['.', 't', 'x', 't'])).drop (a.length + 3) =
      b ++ ['.', 't', 'x', 't'] := by
    have he : a ++ ' ' :: '-' :: ' ' :: (b ++ ['.', 't', 'x', 't']) =
        (a ++ [' ', '-', ' ']) ++ (b ++ ['.', 't', 'x', 't']) := by simp
    have hl : (a ++ [' ', '-', ' ']).length = a.length + 3 := by simp
    rw [he, ← hl, List.drop_left]
  simp only [matchTitle, lastSepIdx_decomp a b hsep htxt hnla hnlb, hdrop,
    group2Title_append_txt b htxt hnlb]

/- ## Lemmas on the scrobble model -/

theorem statusOkB_cases {t : Track} (h : statusOkB t = true) :
    t.status = some ['S'] ∨ t.status = some ['L'] := by
  simpa [statusOkB, Bool.or_eq_true, beq_iff_eq] using h

theorem statusBad_cases {t : Track} (h : statusOkB t = false) :
    t.status ≠ some ['S'] ∧ t.status ≠ some ['L'] := by
  simpa [statusOkB, Bool.or_eq_false_iff, beq_eq_false_iff_ne] using h

/-- An error produced at the head line is the result of the whole loop,
whatever well-formed lines precede it. -/
theorem submitAux_append_error (fixTs : Int → Int) (bad : List Char)
    (post : List (List Char)) (E : ScrobbleErr)
    (hb : ∀ tracks tc lc, submitScrobbleLogAux fixTs (bad :: post) tracks tc lc = .error E) :
    ∀ (pre : List (List Char)) (tracks : List Track) (tc lc : Nat),
      (∀ l ∈ pre, lineOk fixTs l = true) →
      submitScrobbleLogAux fixTs (pre ++ bad :: post) tracks tc lc = .error E := by
  intro pre
  induction pre with
  | nil => intro tracks tc lc _; exact hb tracks tc lc
  | cons l pre ih =>
    intro tracks tc lc h
    have hl := h l (List.mem_cons_self _ _)
    have hrest : ∀ x ∈ pre, lineOk fixTs x = true :=
      fun x hx => h x (List.mem_cons_of_mem _ hx)
    by_cases hc : isComment l = true
    · rw [List.cons_append]
      simp only [submitScrobbleLogAux, hc, if_true]
      exact ih tracks tc lc hrest
    · have hc' : isComment l = false := by simpa using hc
      rw [lineOk, hc'] at hl
      simp only [Bool.false_or] at hl
      cases hp : parseLine fixTs l with
      | error e => rw [hp] at hl; simp at hl
      | ok t =>
        rw [hp] at hl
        rw [List.cons_append]
        simp only [submitScrobbleLogAux, hc', if_false, Bool.false_eq_true, hp]
        rcases statusOkB_cases hl with hS | hL
        · rw [if_pos hS]
          exact ih tracks (tc + 1) lc hrest
        · have hne : t.status ≠ some ['S'] := by rw [hL]; decide
          rw [if_neg hne, if_pos hL]
          exact ih (tracks ++ [t]) (tc + 1) (lc + 1) hrest

/-- A reachable non-comment line with an unrecognized status terminates
the loop with the `ScrobblerError` `fail()`. -/
theorem submitAux_badStatus (fixTs : Int → Int) (bad : List Char) (post : List (List Char))
    (hb : lineBadStatus fixTs bad = true) :
    ∀ tracks tc lc, submitScrobbleLogAux fixTs (bad :: post) tracks tc lc = .error .scrobbler := by
  intro tracks tc lc
  rw [lineBadStatus, Bool.and_eq_true, Bool.not_eq_true'] at hb
  obtain ⟨hc, hm⟩ := hb
  cases hp : parseLine fixTs bad with
  | error e => rw [hp] at hm; simp at hm
  | ok t =>
    rw [hp] at hm
    simp only [Bool.not_eq_true'] at hm
    obtain ⟨hS, hL⟩ := statusBad_cases hm
    simp [submitScrobbleLogAux, hc, hp, hS, hL]

/-- A reachable line whose parsing raises a Python exception terminates
the loop with that exception. -/
theorem submitAux_parseError (fixTs : Int → Int) (bad : List Char) (post : List (List Char))
    (e : PyErr) (hc : isComment bad = false) (hp : parseLine fixTs bad = .error e) :
    ∀ tracks tc lc, submitScrobbleLogAux fixTs (bad :: post) tracks tc lc = .error (.py e) := by
  intro tracks tc lc
  simp [submitScrobbleLogAux, hc, hp]

theorem listenedOf_cons_comment (fixTs : Int → Int) {l : List Char}
    (rest : List (List Char)) (hc : isComment l = true) :
    listenedOf fixTs (l :: rest) = listenedOf fixTs rest := by
  simp [listenedOf, List.filterMap_cons, hc]

theorem listenedOf_cons_notL (fixTs : Int → Int) {l : List Char} {t : Track}
    (rest : List (List Char)) (hc : isComment l = false)
    (hp : parseLine fixTs l = .ok t) (hL : t.status ≠ some ['L']) :
    listenedOf fixTs (l :: rest) = listenedOf fixTs rest := by
  simp [listenedOf, List.filterMap_cons, hc, hp, hL]

theorem listenedOf_cons_L (fixTs : Int → Int) {l : List Char} {t : Track}
    (rest : List (List Char)) (hc : isComment l = false)
    (hp : parseLine fixTs l = .ok t) (hL : t.status = some ['L']) :
    listenedOf fixTs (l :: rest) = t :: listenedOf fixTs rest := by
  simp [listenedOf, List.filterMap_cons, hc, hp, hL]

theorem nonCommentCount_cons_comment {l : List Char} (rest : List (List Char))
    (hc : isComment l = true) : nonCommentCount (l :: rest) = nonCommentCount rest := by
  simp [nonCommentCount, hc]

theorem nonCommentCount_cons_line {l : List Char} (rest : List (List Char))
    (hc : isComment l = false) :
    nonCommentCount (l :: rest) = nonCommentCount rest + 1 := by
  simp [nonCommentCount, hc]

/-- The loop computes the listened batch and both counters. -/
theorem submitAux_ok (fixTs : Int → Int) :
    ∀ (lines : List (List Char)) (tracks : List Track) (tc lc : Nat),
      (∀ l ∈ lines, lineOk fixTs l = true) →
      submitScrobbleLogAux fixTs lines tracks tc lc =
        .ok (tracks ++ listenedOf fixTs lines,
             lc + (listenedOf fixTs lines).length,
             tc + nonCommentCount lines) := by
  intro lines
  induction lines with
  | nil =>
    intro tracks tc lc _
    simp [submitScrobbleLogAux, listenedOf, nonCommentCount]
  | cons l rest ih =>
    intro tracks tc lc h
    have hl := h l (List.mem_cons_self _ _)
    have hrest : ∀ x ∈ rest, lineOk fixTs x = true :=
      fun x hx => h x (List.mem_cons_of_mem _ hx)
    by_cases hc : isComment l = true
    · simp only [submitScrobbleLogAux, hc, if_true]
      rw [ih tracks tc lc hrest, listenedOf_cons_comment fixTs rest hc,
        nonCommentCount_cons_comment rest hc]
    · have hc' : isComment l = false := by simpa using hc
      rw [lineOk, hc'] at hl
      simp only [Bool.false_or] at hl
      cases hp : parseLine fixTs l with
      | error e => rw [hp] at hl; simp at hl
      | ok t =>
        rw [hp] at hl
        simp only [submitScrobbleLogAux, hc', if_false, Bool.false_eq_true, hp]
        rcases statusOkB_cases hl with hS | hL
        · have hLne : t.status ≠ some ['L'] := by rw [hS]; decide
          rw [if_pos hS]
          rw [ih tracks (tc + 1) lc hrest, listenedOf_cons_notL fixTs rest hc' hp hLne,
            nonCommentCount_cons_line rest hc']
          have h3 : tc + 1 + nonCommentCount rest = tc + (nonCommentCount rest + 1) := by omega
          rw [h3]
        · have hne : t.status ≠ some ['S'] := by rw [hL]; decide
          rw [if_neg hne, if_pos hL]
          rw [ih (tracks ++ [t]) (tc + 1) (lc + 1) hrest,
            listenedOf_cons_L fixTs rest hc' hp hL,
            nonCommentCount_cons_line rest hc']
          have h1 : tracks ++ t :: listenedOf fixTs rest =
              (tracks ++ [t]) ++ listenedOf fixTs rest := by simp
          have h2 : lc + (t :: listenedOf fixTs rest).length =
              lc + 1 + (listenedOf fixTs rest).length := by
            simp only [List.length_cons]
            omega
          have h3 : tc + 1 + nonCommentCount rest = tc + (nonCommentCount rest + 1) := by omega
          rw [h1, h2, h3]

theorem pyIndex_map {α β : Type} (f : α → β) :
    ∀ (l : List α) (i : Nat), pyIndex (l.map f) i = (pyIndex l i).map f := by
  intro l
  induction l with
  | nil => intro i; rfl
  | cons a rest ih =>
    intro i
    cases i with
    | zero => rfl
    | succ n => exact ih n

theorem pyIndex_length {α : Type} :
    ∀ (l : List α) (i : Nat), i < l.length → ∃ x, pyIndex l i = some x := by
  intro l
  induction l with
  | nil => intro i h; simp at h
  | cons a rest ih =>
    intro i h
    cases i with
    | zero => exact ⟨a, rfl⟩
    | succ n => exact ih n (by simpa using h)

/-- Python indexing forces the shape of a list with a 7th element. -/
theorem exists_of_pyIndex6 {α : Type} (l : List α) (x : α) (h : pyIndex l 6 = some x) :
    ∃ a b c d e f rest, l = a :: b :: c :: d :: e :: f :: x :: rest := by
  rcases l with _ | ⟨a, _ | ⟨b, _ | ⟨c, _ | ⟨d, _ | ⟨e, _ | ⟨f, _ | ⟨g, rest⟩⟩⟩⟩⟩⟩⟩ <;>
    simp_all [pyIndex]

/-- Fewer than 7 split fields: the dict literal hits a missing index among
0-6 before anything else, raising `IndexError`. -/
theorem parseParts_short (fixTs : Int → Int) (parts : List (Option (List Char)))
    (h : parts.length < 7) : parseParts fixTs parts = .error .indexError := by
  rcases parts with _ | ⟨a, _ | ⟨b, _ | ⟨c, _ | ⟨d, _ | ⟨e, _ | ⟨f, _ | ⟨g, rest⟩⟩⟩⟩⟩⟩⟩
  · rfl
  · rfl
  · rfl
  · rfl
  · rfl
  · rfl
  · rfl
  · exfalso; simp at h; omega

/-- A present but empty timestamp field becomes `None`, and `int(None)`
raises `TypeError`. -/
theorem parseParts_typeError (fixTs : Int → Int) (parts : List (Option (List Char)))
    (h6 : pyIndex parts 6 = some none) : parseParts fixTs parts = .error .typeError := by
  obtain ⟨a, b, c, d, e, f, rest, rfl⟩ := exists_of_pyIndex6 parts _ h6
  rfl

/-- A present, nonempty, non-integer timestamp field raises `ValueError`
at `int(parts[6])`. -/
theorem parseParts_valueError (fixTs : Int → Int) (parts : List (Option (List Char)))
    (s : List Char) (h6 : pyIndex parts 6 = some (some s)) (hbad : pyInt s = none) :
    parseParts fixTs parts = .error .valueError := by
  obtain ⟨a, b, c, d, e, f, rest, rfl⟩ := exists_of_pyIndex6 parts _ h6
  simp [parseParts, getPart, parseTs, pyIndex, hbad]

/-- A present, nonempty, parseable timestamp outside the `datetime`
range: `__fix_timestamp` raises before `parts[7]` and before the status
check. -/
theorem parseParts_tsOutOfRange (fixTs : Int → Int) (parts : List (Option (List Char)))
    (s : List Char) (v : Int) (h6 : pyIndex parts 6 = some (some s))
    (hv : pyInt s = some v) (hr : fixTsInRange v = false) :
    parseParts fixTs parts = .error .fixTsError := by
  obtain ⟨a, b, c, d, e, f, rest, rfl⟩ := exists_of_pyIndex6 parts _ h6
  simp [parseParts, getPart, parseTs, pyIndex, hv, hr]

/-- Exactly 7 fields with a good, in-range integer timestamp: the `mbid`
entry indexes `parts[7]`, raising `IndexError`. -/
theorem parseParts_sevenFields (fixTs : Int → Int) (a b c d e f : Option (List Char))
    (s : List Char) (v : Int) (hv : pyInt s = some v) (hr : fixTsInRange v = true) :
    parseParts fixTs [a, b, c, d, e, f, some s] = .error .indexError := by
  simp [parseParts, getPart, parseTs, pyIndex, hv, hr]

/- ## Lemmas on `rfindI` and `splitext` -/

theorem rfindI_nil (c : Char) : rfindI c [] = -1 := rfl

theorem rfindI_cons (c a : Char) (rest : List Char) :
    rfindI c (a :: rest) =
      if 0 ≤ rfindI c rest then rfindI c rest + 1
      else if a == c then 0 else -1 := rfl

theorem neg_one_le_rfindI (c : Char) (l : List Char) : -1 ≤ rfindI c l := by
  induction l with
  | nil => rw [rfindI_nil]
  | cons a rest ih =>
    rw [rfindI_cons]
    split_ifs <;> omega

theorem rfindI_lt_length (c : Char) (l : List Char) : rfindI c l < (l.length : Int) := by
  induction l with
  | nil =>
    rw [rfindI_nil]
    simp
  | cons a rest ih =>
    rw [rfindI_cons]
    simp only [List.length_cons]
    split_ifs <;> push_cast <;> omega

theorem rfindI_eq_neg_one (c : Char) (l : List Char) (h : c ∉ l) : rfindI c l = -1 := by
  induction l with
  | nil => rfl
  | cons a rest ih =>
    have ha : a ≠ c := fun hac => h (hac ▸ List.mem_cons_self a rest)
    have hr : c ∉ rest := fun hm => h (List.mem_cons_of_mem a hm)
    rw [rfindI_cons, ih hr]
    simp [ha]

theorem rfindI_head_self (c : Char) (rest : List Char) (h : c ∉ rest) :
    rfindI c (c :: rest) = 0 := by
  rw [rfindI_cons, rfindI_eq_neg_one c rest h]
  simp

theorem rfindI_append_right (c : Char) (l r : List Char) (h : 0 ≤ rfindI c r) :
    rfindI c (l ++ r) = l.length + rfindI c r := by
  induction l with
  | nil => simp
  | cons a l ih =>
    rw [List.cons_append, rfindI_cons, ih]
    rw [if_pos (show (0 : Int) ≤ ↑l.length + rfindI c r by omega)]
    simp only [List.length_cons]
    push_cast
    omega

theorem rfindI_append_left (c : Char) (l r : List Char) (h : rfindI c r = -1) :
    rfindI c (l ++ r) = rfindI c l := by
  induction l with
  | nil => simpa using h
  | cons a l ih =>
    rw [List.cons_append, rfindI_cons, ih, rfindI_cons]

theorem le_rfindI_append (c : Char) (l r : List Char) :
    (l.length : Int) ≤ rfindI c (l ++ c :: r) := by
  induction l with
  | nil =>
    simp only [List.nil_append, List.length_nil, Nat.cast_zero]
    rw [rfindI_cons]
    split_ifs with h1 h2
    · omega
    · simp
    · simp at h2
  | cons a l ih =>
    rw [List.cons_append, rfindI_cons]
    rw [if_pos (show (0 : Int) ≤ rfindI c (l ++ c :: r) by omega)]
    simp only [List.length_cons]
    push_cast
    push_cast at ih
    omega

theorem rfindI_slash (A base : List Char) (hb : '/' ∉ base) :
    rfindI '/' (A ++ '/' :: base) = A.length := by
  have h0 : rfindI '/' ('/' :: base) = 0 := rfindI_head_self '/' base hb
  rw [rfindI_append_right '/' A _ (by rw [h0]), h0]
  simp

theorem rfindI_dotpos (A stem e : List Char) (hde : '.' ∉ e) :
    rfindI '.' (A ++ '/' :: (stem ++ '.' :: e)) =
      (A.length : Int) + stem.length + 1 := by
  have h1 : rfindI '.' ('.' :: e) = 0 := rfindI_head_self '.' e hde
  have h2 : rfindI '.' (stem ++ '.' :: e) = stem.length := by
    rw [rfindI_append_right '.' stem _ (by rw [h1]), h1]
    simp
  have h3 : rfindI '.' ('/' :: (stem ++ '.' :: e)) = (stem.length : Int) + 1 := by
    rw [rfindI_cons, h2, if_pos (by positivity)]
  rw [rfindI_append_right '.' A _ (by rw [h3]; positivity), h3]
  ring

theorem not_mem_ext_append {stem e : List Char} (hs : '/' ∉ stem) (he : '/' ∉ e) :
    '/' ∉ stem ++ '.' :: e := by
  simp only [List.mem_append, List.mem_cons]
  push_neg
  exact ⟨hs, by decide, he⟩

/-- Computation of `splitext` on a path whose final component has a real extension:
split at the final dot. -/
theorem splitext_ext (A stem e : List Char) (hs : '/' ∉ stem) (he : '/' ∉ e)
    (hde : '.' ∉ e) (hnd : ∃ ch ∈ stem, ch ≠ '.') :
    splitext (A ++ '/' :: (stem ++ '.' :: e)) = (A ++ '/' :: stem, '.' :: e) := by
  have hsi : rfindI '/' (A ++ '/' :: (stem ++ '.' :: e)) = A.length :=
    rfindI_slash A _ (not_mem_ext_append hs he)
  have hdi : rfindI '.' (A ++ '/' :: (stem ++ '.' :: e)) =
      (A.length : Int) + stem.length + 1 := rfindI_dotpos A stem e hde
  have hdrop : (A ++ '/' :: (stem ++ '.' :: e)).drop (A.length + 1) = stem ++ '.' :: e := by
    have he1 : A ++ '/' :: (stem ++ '.' :: e) = (A ++ ['/']) ++ (stem ++ '.' :: e) := by simp
    have hl1 : (A ++ ['/']).length = A.length + 1 := by simp
    rw [he1, ← hl1, List.drop_left]
  have htake : (A ++ '/' :: (stem ++ '.' :: e)).take (A.length + stem.length + 1) =
      A ++ '/' :: stem := by
    have he2 : A ++ '/' :: (stem ++ '.' :: e) = (A ++ '/' :: stem) ++ ('.' :: e) := by simp
    have hl2 : (A ++ '/' :: stem).length = A.length + stem.length + 1 := by
      simp only [List.length_append, List.length_cons]
      omega
    rw [he2, ← hl2, List.take_left]
  have hdropdot : (A ++ '/' :: (stem ++ '.' :: e)).drop (A.length + stem.length + 1) =
      '.' :: e := by
    have he2 : A ++ '/' :: (stem ++ '.' :: e) = (A ++ '/' :: stem) ++ ('.' :: e) := by simp
    have hl2 : (A ++ '/' :: stem).length = A.length + stem.length + 1 := by
      simp only [List.length_append, List.length_cons]
      omega
    rw [he2, ← hl2, List.drop_left]
  have hany : stem.any (fun ch => ch != '.') = true := by
    rw [List.any_eq_true]
    obtain ⟨ch, hmem, hne⟩ := hnd
    exact ⟨ch, hmem, bne_iff_ne.mpr hne⟩
  have hn1 : ((A.length : Int) + 1).toNat = A.length + 1 := by omega
  have hn2 : ((A.length : Int) + stem.length + 1 - A.length - 1).toNat = stem.length := by
    omega
  have hn3 : ((A.length : Int) + stem.length + 1).toNat = A.length + stem.length + 1 := by
    omega
  rw [splitext, hsi, hdi]
  rw [if_pos (show (A.length : Int) < ↑A.length + ↑stem.length + 1 by omega)]
  rw [hn1, hn2, hn3, hdrop, List.take_left, hany, if_pos rfl, htake, hdropdot]

/-- Computation of `splitext` on a path whose final component is dots followed by a
dotless tail (hidden-file style, e.g. `.flac`): no extension. -/
theorem splitext_hidden (A stem e : List Char) (hs : '/' ∉ stem) (he : '/' ∉ e)
    (hde : '.' ∉ e) (hall : ∀ ch ∈ stem, ch = '.') :
    splitext (A ++ '/' :: (stem ++ '.' :: e)) = (A ++ '/' :: (stem ++ '.' :: e), []) := by
  have hsi : rfindI '/' (A ++ '/' :: (stem ++ '.' :: e)) = A.length :=
    rfindI_slash A _ (not_mem_ext_append hs he)
  have hdi : rfindI '.' (A ++ '/' :: (stem ++ '.' :: e)) =
      (A.length : Int) + stem.length + 1 := rfindI_dotpos A stem e hde
  have hdrop : (A ++ '/' :: (stem ++ '.' :: e)).drop (A.length + 1) = stem ++ '.' :: e := by
    have he1 : A ++ '/' :: (stem ++ '.' :: e) = (A ++ ['/']) ++ (stem ++ '.' :: e) := by simp
    have hl1 : (A ++ ['/']).length = A.length + 1 := by simp
    rw [he1, ← hl1, List.drop_left]
  have hany : stem.any (fun ch => ch != '.') = false := by
    rw [List.any_eq_false]
    intro ch hmem
    simp [hall ch hmem]
  have hn1 : ((A.length : Int) + 1).toNat = A.length + 1 := by omega
  have hn2 : ((A.length : Int) + stem.length + 1 - A.length - 1).toNat = stem.length := by
    omega
  rw [splitext, hsi, hdi]
  rw [if_pos (show (A.length : Int) < ↑A.length + ↑stem.length + 1 by omega)]
  rw [hn1, hn2, hdrop, List.take_left, hany]
  simp

/-- Computation of `splitext` on a path whose final component has no dot at all: no
extension. -/
theorem splitext_nodot (A base : List Char) (hb : '/' ∉ base) (hd : '.' ∉ base) :
    splitext (A ++ '/' :: base) = (A ++ '/' :: base, []) := by
  have hsi : rfindI '/' (A ++ '/' :: base) = A.length := rfindI_slash A base hb
  have hdi : rfindI '.' (A ++ '/' :: base) = rfindI '.' A := by
    have h0 : rfindI '.' ('/' :: base) = -1 := by
      rw [rfindI_cons, rfindI_eq_neg_one '.' base hd]
      simp
    exact rfindI_append_left '.' A _ h0
  have hlt : ¬ (rfindI '/' (A ++ '/' :: base) < rfindI '.' (A ++ '/' :: base)) := by
    rw [hsi, hdi]
    have := rfindI_lt_length '.' A
    omega
  rw [splitext, if_neg hlt]

/- ## Lemmas on `editPlaylistLine` and the command models -/

theorem pyJoin2_nil (b : List Char) : pyJoin2 [] b = b := by
  rw [pyJoin2]
  split_ifs <;> simp_all

theorem splitext_fst_cases (p : List Char) :
    (splitext p).1 = p ∨
      ((splitext p).1 = p.take (rfindI '.' p).toNat ∧ rfindI '/' p < rfindI '.' p) := by
  rw [splitext]
  split_ifs with h1 h2
  · exact Or.inr ⟨rfl, h1⟩
  · exact Or.inl rfl
  · exact Or.inl rfl

theorem take_root_of_prefixed (track : List Char) :
    (plRefmtRoot ++ '/' :: track).take (plRefmtRoot.length + 1) = plRefmtRoot ++ ['/'] := by
  have hroot : plRefmtRoot ++ '/' :: track = (plRefmtRoot ++ ['/']) ++ track := by simp
  have hlen : (plRefmtRoot ++ ['/']).length = plRefmtRoot.length + 1 := by simp
  rw [hroot, ← hlen, List.take_left]

/-- Whatever the configured extensions and the line, the rewritten line
starts with the device prefix and the separating slash. -/
theorem editPlaylistLine_take (exts : List (List Char)) (track : List Char) :
    (editPlaylistLine exts track).take (plRefmtRoot.length + 1) = plRefmtRoot ++ ['/'] := by
  have hlen_t : plRefmtRoot.length + 1 ≤ (plRefmtRoot ++ '/' :: track).length := by simp
  simp only [editPlaylistLine]
  by_cases hct :
      exts.contains ((splitext (plRefmtRoot ++ '/' :: track)).2.drop 1) = true
  · rw [if_pos hct]
    rcases splitext_fst_cases (plRefmtRoot ++ '/' :: track) with h1 | ⟨h1, hlt⟩
    · rw [h1, List.take_append_of_le_length hlen_t, take_root_of_prefixed]
    · have hsi : (plRefmtRoot.length : Int) ≤ rfindI '/' (plRefmtRoot ++ '/' :: track) :=
        le_rfindI_append '/' plRefmtRoot track
      have hdlt : rfindI '.' (plRefmtRoot ++ '/' :: track) <
          ((plRefmtRoot ++ '/' :: track).length : Int) :=
        rfindI_lt_length '.' (plRefmtRoot ++ '/' :: track)
      have hge : plRefmtRoot.length + 1 ≤ (rfindI '.' (plRefmtRoot ++ '/' :: track)).toNat := by
        omega
      have hlenle : plRefmtRoot.length + 1 ≤
          ((plRefmtRoot ++ '/' :: track).take
            (rfindI '.' (plRefmtRoot ++ '/' :: track)).toNat).length := by
        rw [List.length_take]
        refine le_min hge ?_
        exact hlen_t
      rw [h1, List.take_append_of_le_length hlenle, List.take_take,
        min_eq_left hge, take_root_of_prefixed]
  · rw [if_neg hct, take_root_of_prefixed]

theorem Out.seq_none (o : Out) (f : St → Out) (h : o.exit = none) :
    o.seq f = { trace := o.trace ++ (f o.st).trace, st := (f o.st).st, exit := (f o.st).exit } := by
  rw [Out.seq, h]

theorem Out.seq_some (o : Out) (f : St → Out) (e : ExitKind) (h : o.exit = some e) :
    o.seq f = o := by
  rw [Out.seq, h]

/- ## The claims -/

/-- Claim C1: the spec requires every fatal failure downstream of a mount
to release (unmount) the device before the process exits.  The code does
not do this: in a `cp-playlists` run in which every external command
succeeds except the rsync mirror (exit code 1), `fail()` terminates the
process with `ERR_RSYNC = 6` while the media device is still mounted, and
no unmount is ever attempted. -/
theorem c1_fatal_rsync_exit_leaves_media_mounted :
    (cmdCpPlaylists cfg0 envRsyncFail initSt).exit = some (.code 6) ∧
    (cmdCpPlaylists cfg0 envRsyncFail initSt).st.mediaMounted = true ∧
    Ev.unmountMedia ∉ (cmdCpPlaylists cfg0 envRsyncFail initSt).trace ∧
    Ev.mountMedia ∈ (cmdCpPlaylists cfg0 envRsyncFail initSt).trace := by
  decide

/-- Claim C2 is false as stated: the regex groups are greedy, so on
`"A - B - C.txt"` the rename splits at the LAST `" - "` (title `C`), not
at the first (which would give title `B - C`). -/
theorem c2_counterexample :
    renameLyric "A - B - C.txt".toList = "C.txt".toList ∧
    renameLyric "A - B - C.txt".toList ≠ "B - C.txt".toList := by
  decide

/-- Claim C2 (amended): the rename splits at the last `" - "` separator:
for a newline-free filename `a ++ " - " ++ b ++ ".txt"` whose title part
`b` contains no further `" - "` (nor starts with `"- "`, nor contains
`"txt"`), the artist part `a` — which may itself contain `" - "` — is
discarded and the result is `b ++ ".txt"`; filenames the regex does not
match at all (including any name whose `" - "` separators all lie beyond
a newline, since `.` does not match `'\n'`) are left unrenamed and are
not an error. -/
theorem c2_rename_splits_at_last_separator (a b : List Char)
    (hsep : hasSep (' ' :: b) = false) (htxt : hasTxt b = false)
    (hnla : '\n' ∉ a) (hnlb : '\n' ∉ b) :
    renameLyric (a ++ ' ' :: '-' :: ' ' :: (b ++ ['.', 't', 'x', 't'])) =
      b ++ ['.', 't', 'x', 't'] ∧
    (∀ f : List Char, matchTitle f = none → renameLyric f = f) := by
  constructor
  · rw [renameLyric, matchTitle_decomp a b hsep htxt hnla hnlb]
  · intro f hf
    rw [renameLyric, hf]

theorem c2_rename_splits_at_last_separator_witness :
    hasSep (' ' :: "C".toList) = false ∧ hasTxt "C".toList = false ∧
    renameLyric ("A - B".toList ++ ' ' :: '-' :: ' ' :: ("C".toList ++ ['.', 't', 'x', 't'])) =
      "C".toList ++ ['.', 't', 'x', 't'] :=
  ⟨by decide, by decide,
    (c2_rename_splits_at_last_separator "A - B".toList "C".toList
      (by decide) (by decide) (by decide) (by decide)).1⟩

/-- Claim C4: a scrobble log whose lines parse — 8 tab fields and an
integer timestamp accepted by `__fix_timestamp`, which runs before the
status is examined — but which contains a non-comment line with a status
that is neither `S` (skipped) nor `L` (listened) fails with the
`ScrobblerError` `fail()`, and no batch is handed to the remote service
(the submitted batch exists only in the `.ok` result; `scrobble_many` is
never reached), regardless of how many events parsed before the bad
line.  A line that does not parse raises the Python exceptions of C10
before the status check instead. -/
theorem c4_bad_status_fails_closed (fixTs : Int → Int) (pre : List (List Char))
    (bad : List Char) (post : List (List Char))
    (hpre : ∀ l ∈ pre, lineOk fixTs l = true)
    (hbad : lineBadStatus fixTs bad = true) :
    submitScrobbleLog fixTs (pre ++ bad :: post) = .error .scrobbler :=
  submitAux_append_error fixTs bad post .scrobbler
    (submitAux_badStatus fixTs bad post hbad) pre [] 0 0 hpre

theorem c4_bad_status_fails_closed_witness :
    submitScrobbleLog id
      ["x\ty\tz\t1\t2\tL\t100\tm".toList, "a\tb\tc\t1\t2\tQ\t100\tm".toList] =
      .error .scrobbler :=
  c4_bad_status_fails_closed id ["x\ty\tz\t1\t2\tL\t100\tm".toList]
    "a\tb\tc\t1\t2\tQ\t100\tm".toList [] (by decide) (by decide)

/-- Claim C5: on a well-formed log — every non-comment line parses with
8 tab fields, an integer timestamp accepted by `__fix_timestamp`, and
status `S` or `L` — the run succeeds, the batch handed to the remote
service consists of exactly the `L`-lines' events in log order, and the
reported totals are the number of `L` lines and the number of non-comment
lines. -/
theorem c5_listened_batch_in_order (fixTs : Int → Int) (lines : List (List Char))
    (h : ∀ l ∈ lines, lineOk fixTs l = true) :
    submitScrobbleLog fixTs lines =
      .ok (listenedOf fixTs lines, (listenedOf fixTs lines).length, nonCommentCount lines) := by
  rw [submitScrobbleLog, submitAux_ok fixTs lines [] 0 0 h]
  simp

theorem c5_listened_batch_in_order_witness :
    submitScrobbleLog id
      ["# AUDIOSCROBBLER/1.1".toList,
       "a\tal\tt1\t1\t100\tL\t1600000000\tmb1".toList,
       "b\t\tt2\t\t\tS\t1600000001\t".toList,
       "c\tal\tt3\t2\t90\tL\t1600000002\t".toList] =
      .ok (listenedOf id
            ["# AUDIOSCROBBLER/1.1".toList,
             "a\tal\tt1\t1\t100\tL\t1600000000\tmb1".toList,
             "b\t\tt2\t\t\tS\t1600000001\t".toList,
             "c\tal\tt3\t2\t90\tL\t1600000002\t".toList],
           2, 3) := by
  have h := c5_listened_batch_in_order id
    ["# AUDIOSCROBBLER/1.1".toList,
     "a\tal\tt1\t1\t100\tL\t1600000000\tmb1".toList,
     "b\t\tt2\t\t\tS\t1600000001\t".toList,
     "c\tal\tt3\t2\t90\tL\t1600000002\t".toList] (by decide)
  rw [h]
  decide

/-- Claim C8 is false as stated: when the unmount command exits non-zero,
the exception is raised BEFORE `__reset_mountpoint`, so the in-memory
device keeps its old mountpoint — it is NOT marked unmounted. -/
theorem c8_counterexample :
    (unmountDevice "/run/media/sd".toList 1).1 = some .unmountFailed ∧
    (unmountDevice "/run/media/sd".toList 1).2 = "/run/media/sd".toList ∧
    (unmountDevice "/run/media/sd".toList 1).2 ≠ [] := by
  decide

/-- Claim C8 (amended): on a non-zero unmount exit a `DeviceError` is
raised and the in-memory mountpoint is left unchanged (the device is
still marked mounted); the mountpoint is reset to the empty string only
on a successful unmount. -/
theorem c8_unmount_failure_keeps_mountpoint (mp : List Char) (rc : Int) :
    (rc ≠ 0 → unmountDevice mp rc = (some .unmountFailed, mp)) ∧
    (rc = 0 → unmountDevice mp rc = (none, [])) := by
  constructor <;> intro h <;> simp [unmountDevice, h]

theorem c8_unmount_failure_keeps_mountpoint_witness :
    unmountDevice "/mnt/x".toList 1 = (some .unmountFailed, "/mnt/x".toList) ∧
    unmountDevice "/mnt/x".toList 0 = (none, []) :=
  ⟨(c8_unmount_failure_keeps_mountpoint "/mnt/x".toList 1).1 (by decide),
   (c8_unmount_failure_keeps_mountpoint "/mnt/x".toList 0).2 rfl⟩

/-- Claim C10 is false as stated only in one corner: a line with 7 tab
fields whose 7th (timestamp) field is empty raises `TypeError` (from
`int(None)`), which is neither an indexing nor a value error — though
still an unhandled Python exception rather than `ScrobblerError`. -/
theorem c10_counterexample :
    (splitTab (rstripCRLF "a\tb\tc\t1\t2\tL\t".toList)).length = 7 ∧
    submitScrobbleLog id ["a\tb\tc\t1\t2\tL\t".toList] = .error (.py .typeError) ∧
    ScrobbleErr.py PyErr.typeError ≠ ScrobbleErr.py PyErr.indexError ∧
    ScrobbleErr.py PyErr.typeError ≠ ScrobbleErr.py PyErr.valueError ∧
    ScrobbleErr.py PyErr.typeError ≠ ScrobbleErr.scrobbler := by
  decide

/-- Claim C10 (amended): a reachable non-comment line that splits into
fewer than 8 tab fields, or whose 7th (timestamp) field is not a
parseable integer, or whose timestamp is a parseable integer outside the
`datetime` epoch range, makes the run terminate with an unhandled Python
exception rather than the `ScrobblerError` used for unrecognized status
codes; the field count is never validated before the fields are indexed.
Precisely: fewer than 7 fields raises `IndexError`; an empty 7th field
raises `TypeError`; a nonempty non-integer 7th field raises `ValueError`;
a parseable integer timestamp outside `[-62135596800, 253402300799]`
makes `__fix_timestamp`'s `utcfromtimestamp` raise (`ValueError`, or
`OSError`/`OverflowError` at platform extremes) before the mbid field is
indexed and before the status check; and exactly 7 fields with a good,
in-range integer timestamp raise `IndexError` at the 8th (mbid) field. -/
theorem c10_parse_errors_uncaught (fixTs : Int → Int) (pre : List (List Char))
    (bad : List Char) (post : List (List Char))
    (hpre : ∀ l ∈ pre, lineOk fixTs l = true)
    (hbad : isComment bad = false) :
    ((splitTab (rstripCRLF bad)).length < 7 →
      submitScrobbleLog fixTs (pre ++ bad :: post) = .error (.py .indexError)) ∧
    (pyIndex (splitTab (rstripCRLF bad)) 6 = some [] →
      submitScrobbleLog fixTs (pre ++ bad :: post) = .error (.py .typeError)) ∧
    (∀ s, pyIndex (splitTab (rstripCRLF bad)) 6 = some s → s ≠ [] → pyInt s = none →
      submitScrobbleLog fixTs (pre ++ bad :: post) = .error (.py .valueError)) ∧
    (∀ s v, pyIndex (splitTab (rstripCRLF bad)) 6 = some s → pyInt s = some v →
      fixTsInRange v = false →
      submitScrobbleLog fixTs (pre ++ bad :: post) = .error (.py .fixTsError)) ∧
    (∀ s v, (splitTab (rstripCRLF bad)).length = 7 →
      pyIndex (splitTab (rstripCRLF bad)) 6 = some s → pyInt s = some v →
      fixTsInRange v = true →
      submitScrobbleLog fixTs (pre ++ bad :: post) = .error (.py .indexError)) := by
  have hsub : ∀ e, parseLine fixTs bad = .error e →
      submitScrobbleLog fixTs (pre ++ bad :: post) = .error (.py e) := fun e hp =>
    submitAux_append_error fixTs bad post (.py e)
      (submitAux_parseError fixTs bad post e hbad hp) pre [] 0 0 hpre
  refine ⟨?_, ?_, ?_, ?_, ?_⟩
  · intro hlen
    refine hsub .indexError ?_
    rw [parseLine]
    refine parseParts_short fixTs _ ?_
    simpa using hlen
  · intro h6
    refine hsub .typeError ?_
    rw [parseLine]
    refine parseParts_typeError fixTs _ ?_
    rw [pyIndex_map, h6]
    rfl
  · intro s h6 hs hbadint
    refine hsub .valueError ?_
    rw [parseLine]
    refine parseParts_valueError fixTs _ s ?_ hbadint
    rw [pyIndex_map, h6]
    simp [toField, hs]
  · intro s v h6 hint hr
    refine hsub .fixTsError ?_
    have hs : s ≠ [] := by
      intro hnil
      rw [hnil, show pyInt ([] : List Char) = none from rfl] at hint
      exact Option.noConfusion hint
    rw [parseLine]
    refine parseParts_tsOutOfRange fixTs _ s v ?_ hint hr
    rw [pyIndex_map, h6]
    simp [toField, hs]
  · intro s v hlen h6 hint hr
    refine hsub .indexError ?_
    obtain ⟨a, b, c, d, e, f, rest, hshape⟩ := exists_of_pyIndex6 _ _ h6
    have hs : s ≠ [] := by
      intro hnil
      rw [hnil, show pyInt ([] : List Char) = none from rfl] at hint
      exact Option.noConfusion hint
    have hrest : rest = [] := by
      rw [hshape] at hlen
      simpa using hlen
    rw [parseLine, hshape, hrest]
    have hmap : (([a, b, c, d, e, f, s] : List (List Char)).map toField) =
        [toField a, toField b, toField c, toField d, toField e, toField f, some s] := by
      simp [toField, hs]
    rw [show (a :: b :: c :: d :: e :: f :: s :: ([] : List (List Char))) =
      [a, b, c, d, e, f, s] from rfl, hmap]
    exact parseParts_sevenFields fixTs _ _ _ _ _ _ s v hint hr

theorem c10_parse_errors_uncaught_witness :
    submitScrobbleLog id ["a\tb".toList] = .error (.py .indexError) :=
  (c10_parse_errors_uncaught id [] "a\tb".toList [] (by decide) (by decide)).1 (by decide)

/-- Claim C6 is false as stated in one corner: for the line `.flac` (a
hidden-file-style name) the text after the final `.` is `flac`, which is
in the converted set, yet the code does not swap the extension —
`os.path.splitext` treats a name whose only leading characters before the
final dot are dots as having no extension, so the line is passed through
prefixed but unmodified. -/
theorem c6_counterexample :
    extAfterFinalDotSpec ".flac".toList = some "flac".toList ∧
    "flac".toList ∈ cfg0.convertedExts ∧
    editPlaylistLine cfg0.convertedExts ".flac".toList =
      plRefmtRoot ++ "/.flac".toList ∧
    editPlaylistLine cfg0.convertedExts ".flac".toList ≠
      (plRefmtRoot ++ "/".toList) ++ ".ogg".toList := by
  decide

/-- Claim C6 (amended): every rewritten line starts with the configured
device prefix; the extension examined is the `os.path.splitext` one — the
text after the final `.` of the final path component, provided some
character before that dot in the component is not itself a dot.  If that
extension is in the converted set it is swapped for `.ogg`; otherwise the
line is unchanged apart from the prefix.  A component with no dot, or a
hidden-file-style component (only dots before the final dot), has no
extension; such lines are passed through prefixed but unmodified (unless
the configured set pathologically contains the empty extension, in which
case `.ogg` is appended). -/
theorem c6_playlist_line_rewrite (exts : List (List Char)) (track A base : List Char)
    (hdec : plRefmtRoot ++ '/' :: track = A ++ '/' :: base)
    (hnos : '/' ∉ base) :
    (editPlaylistLine exts track).take (plRefmtRoot.length + 1) = plRefmtRoot ++ ['/'] ∧
    (∀ stem e, base = stem ++ '.' :: e → '.' ∉ e → (∃ ch ∈ stem, ch ≠ '.') →
      editPlaylistLine exts track =
        if exts.contains e then (A ++ '/' :: stem) ++ oggExt
        else plRefmtRoot ++ '/' :: track) ∧
    (∀ stem e, base = stem ++ '.' :: e → '.' ∉ e → (∀ ch ∈ stem, ch = '.') →
      editPlaylistLine exts track =
        if exts.contains [] then (plRefmtRoot ++ '/' :: track) ++ oggExt
        else plRefmtRoot ++ '/' :: track) ∧
    ('.' ∉ base →
      editPlaylistLine exts track =
        if exts.contains [] then (plRefmtRoot ++ '/' :: track) ++ oggExt
        else plRefmtRoot ++ '/' :: track) := by
  refine ⟨editPlaylistLine_take exts track, ?_, ?_, ?_⟩
  · intro stem e hbase hde hnd
    subst hbase
    have hs : '/' ∉ stem := fun hm => hnos (List.mem_append_left _ hm)
    have he : '/' ∉ e := fun hm =>
      hnos (List.mem_append_right _ (List.mem_cons_of_mem _ hm))
    simp only [editPlaylistLine]
    rw [hdec, splitext_ext A stem e hs he hde hnd]
    simp only [List.drop_one, List.tail_cons]
  · intro stem e hbase hde hall
    subst hbase
    have hs : '/' ∉ stem := fun hm => hnos (List.mem_append_left _ hm)
    have he : '/' ∉ e := fun hm =>
      hnos (List.mem_append_right _ (List.mem_cons_of_mem _ hm))
    simp only [editPlaylistLine]
    rw [hdec, splitext_hidden A stem e hs he hde hall]
    rfl
  · intro hd
    simp only [editPlaylistLine]
    rw [hdec, splitext_nodot A base hnos hd]
    rfl

theorem c6_playlist_line_rewrite_witness :
    editPlaylistLine cfg0.convertedExts "a/b.flac".toList =
      if cfg0.convertedExts.contains "flac".toList
      then ("/<microSD1>/music/a".toList ++ '/' :: "b".toList) ++ oggExt
      else plRefmtRoot ++ '/' :: "a/b.flac".toList :=
  (c6_playlist_line_rewrite cfg0.convertedExts "a/b.flac".toList
    "/<microSD1>/music/a".toList "b.flac".toList (by decide) (by decide)).2.1
    "b".toList "flac".toList (by decide) (by decide) ⟨'b', by decide, by decide⟩

/-- Claim C3 is false as stated: the maintenance command runs only four
sub-commands — copy-podcasts is never entered. -/
theorem c3_counterexample :
    entersOf (cmdMaintenance id cfg0 envOk initSt) ≠
      [.processScrobbles, .cpPlaylists, .cpLyrics, .cpMusic, .cpPodcasts] ∧
    CmdName.cpPodcasts ∉ entersOf (cmdMaintenance id cfg0 envOk initSt) := by
  decide

/-- Claim C3 (amended): in a run where every external command succeeds
and no device scrobble log is present, the maintenance command runs
exactly process-scrobbles, copy-playlists, copy-lyrics and copy-music, in
that order; copy-podcasts is not part of maintenance. -/
theorem c3_maintenance_runs_four_subcommands (fixTs : Int → Int) (cfg : Config) (env : Env)
    (h1 : env.musctlRc = 0) (h2 : env.mountMediaRc = 0) (h3 : env.mediaInfoRc = 0)
    (h4 : env.unmountMediaRc = 0) (h5 : env.mountSystemRc = 0) (h6 : env.sysInfoRc = 0)
    (h7 : env.unmountSystemRc = 0) (h8 : env.rsyncRc = 0)
    (h9 : env.scrobbleLogPresent = false) :
    entersOf (cmdMaintenance fixTs cfg env initSt) =
      [.processScrobbles, .cpPlaylists, .cpLyrics, .cpMusic] := by
  simp [cmdMaintenance, cmdProcessScrobbles, cmdCpPlaylists, cmdCpLyrics, cmdCpMusic,
    Out.seq, opEnter, opMusctl, mediaMount, mediaUnmount, systemMount, systemUnmount,
    opRsync, h1, h2, h3, h4, h5, h6, h7, h8, h9, entersOf]

theorem c3_maintenance_runs_four_subcommands_witness :
    entersOf (cmdMaintenance id cfg0 envOk initSt) =
      [.processScrobbles, .cpPlaylists, .cpLyrics, .cpMusic] :=
  c3_maintenance_runs_four_subcommands id cfg0 envOk rfl rfl rfl rfl rfl rfl rfl rfl rfl

/-- Claim C7: a copy-podcasts run (with the podcast archive reachable) in
which no episode filename starts with any of the three date strings
selects nothing, never mounts the destination media device, and ends
successfully. -/
theorem c7_empty_selection_skips_device_mount (cfg : Config) (env : Env)
    (hdir : env.podcastsDirExists = false) (hssh : env.sshfsRc = 0)
    (hfus : env.fusermountRc = 0)
    (hsel : ∀ f ∈ env.episodeFiles,
      env.dToday.isPrefixOf f = false ∧ env.dYest.isPrefixOf f = false ∧
        env.dTwoDays.isPrefixOf f = false) :
    selectedEpisodes env = [] ∧
    (cmdCpPodcasts cfg env initSt).exit = none ∧
    Ev.mountMedia ∉ (cmdCpPodcasts cfg env initSt).trace := by
  have hsel0 : selectedEpisodes env = [] := by
    rw [selectedEpisodes,
      List.filter_eq_nil_iff.mpr (fun f hf => by simp [(hsel f hf).1]),
      List.filter_eq_nil_iff.mpr (fun f hf => by simp [(hsel f hf).2.1]),
      List.filter_eq_nil_iff.mpr (fun f hf => by simp [(hsel f hf).2.2])]
    rfl
  obtain ⟨mus, mm, mi, mpv, umm, ms, si, smp, ums, rs, ssh, fus, pde, rmr, slp, ll,
    ef, dt, dy, d2⟩ := env
  dsimp only at hdir hssh hfus hsel0
  subst hdir hssh hfus
  refine ⟨hsel0, ?_, ?_⟩ <;>
    simp [cmdCpPodcasts, Out.seq, opEnter, sshfsMountOp, sshfsUnmountOp, opFail, hsel0]

theorem c7_empty_selection_skips_device_mount_witness :
    selectedEpisodes { envOk with episodeFiles := ["20200101-old-episode.mp3".toList] } = [] ∧
    (cmdCpPodcasts cfg0 { envOk with episodeFiles := ["20200101-old-episode.mp3".toList] }
      initSt).exit = none ∧
    Ev.mountMedia ∉ (cmdCpPodcasts cfg0
      { envOk with episodeFiles := ["20200101-old-episode.mp3".toList] } initSt).trace :=
  c7_empty_selection_skips_device_mount cfg0
    { envOk with episodeFiles := ["20200101-old-episode.mp3".toList] }
    rfl rfl rfl (by decide)

/-- Claim C9: in every copy-podcasts run the device-side destination used
for both the recursive delete and the copy equals
`join(dev-podcasts, "nhk-radio-news")`: it was computed from the media
device's mountpoint before mounting, when that mountpoint is the empty
string, so it does not depend on the reported mountpoint and is not under
the mounted device. -/
theorem c9_podcast_dest_ignores_mountpoint (cfg : Config) (env : Env) (ev : Ev)
    (p : List Char) (hmem : ev ∈ (cmdCpPodcasts cfg env initSt).trace)
    (hev : ev = Ev.rmtree p ∨ ev = Ev.rsync p) :
    p = pyJoin2 cfg.devPodcasts nhkSub := by
  by_cases h1 : env.podcastsDirExists = true
  · rcases hev with rfl | rfl <;>
      simp_all [cmdCpPodcasts, Out.seq, opEnter, sshfsMountOp, sshfsUnmountOp, opFail,
        opRaise, mediaMount, mediaUnmount, opRmtree, opRsync, initSt, pyJoin2_nil]
  · by_cases h2 : env.sshfsRc ≠ 0
    · rcases hev with rfl | rfl <;>
        simp_all [cmdCpPodcasts, Out.seq, opEnter, sshfsMountOp, sshfsUnmountOp, opFail,
          opRaise, mediaMount, mediaUnmount, opRmtree, opRsync, initSt, pyJoin2_nil]
    · by_cases h3 : selectedEpisodes env = []
      · by_cases h4 : env.fusermountRc ≠ 0
        · rcases hev with rfl | rfl <;>
            simp_all [cmdCpPodcasts, Out.seq, opEnter, sshfsMountOp, sshfsUnmountOp, opFail,
              opRaise, mediaMount, mediaUnmount, opRmtree, opRsync, initSt, pyJoin2_nil]
        · rcases hev with rfl | rfl <;>
            simp_all [cmdCpPodcasts, Out.seq, opEnter, sshfsMountOp, sshfsUnmountOp, opFail,
              opRaise, mediaMount, mediaUnmount, opRmtree, opRsync, initSt, pyJoin2_nil]
      · by_cases h5 : env.mountMediaRc ≠ 0
        · rcases hev with rfl | rfl <;>
            simp_all [cmdCpPodcasts, Out.seq, opEnter, sshfsMountOp, sshfsUnmountOp, opFail,
              opRaise, mediaMount, mediaUnmount, opRmtree, opRsync, initSt, pyJoin2_nil]
        · by_cases h6 : env.mediaInfoRc ≠ 0
          · rcases hev with rfl | rfl <;>
              simp_all [cmdCpPodcasts, Out.seq, opEnter, sshfsMountOp, sshfsUnmountOp,
                opFail, opRaise, mediaMount, mediaUnmount, opRmtree, opRsync, initSt,
                pyJoin2_nil]
          · by_cases h7 : env.rmtreeRaises = true
            · rcases hev with rfl | rfl <;>
                simp_all [cmdCpPodcasts, Out.seq, opEnter, sshfsMountOp, sshfsUnmountOp,
                  opFail, opRaise, mediaMount, mediaUnmount, opRmtree, opRsync, initSt,
                  pyJoin2_nil]
            · by_cases h8 : env.rsyncRc ≠ 0
              · rcases hev with rfl | rfl <;>
                  simp_all [cmdCpPodcasts, Out.seq, opEnter, sshfsMountOp, sshfsUnmountOp,
                    opFail, opRaise, mediaMount, mediaUnmount, opRmtree, opRsync, initSt,
                    pyJoin2_nil]
              · by_cases h9 : env.unmountMediaRc ≠ 0
                · rcases hev with rfl | rfl <;>
                    simp_all [cmdCpPodcasts, Out.seq, opEnter, sshfsMountOp, sshfsUnmountOp,
                      opFail, opRaise, mediaMount, mediaUnmount, opRmtree, opRsync, initSt,
                      pyJoin2_nil]
                · by_cases h10 : env.fusermountRc ≠ 0
                  · rcases hev with rfl | rfl <;>
                      simp_all [cmdCpPodcasts, Out.seq, opEnter, sshfsMountOp,
                        sshfsUnmountOp, opFail, opRaise, mediaMount, mediaUnmount,
                        opRmtree, opRsync, initSt, pyJoin2_nil]
                  · rcases hev with rfl | rfl <;>
                      simp_all [cmdCpPodcasts, Out.seq, opEnter, sshfsMountOp,
                        sshfsUnmountOp, opFail, opRaise, mediaMount, mediaUnmount,
                        opRmtree, opRsync, initSt, pyJoin2_nil]

theorem c9_podcast_dest_ignores_mountpoint_witness :
    "Podcasts/nhk-radio-news".toList = pyJoin2 cfg0.devPodcasts nhkSub :=
  c9_podcast_dest_ignores_mountpoint cfg0
    { envOk with episodeFiles := ["20261012-morning-news.mp3".toList] }
    (Ev.rmtree "Podcasts/nhk-radio-news".toList) "Podcasts/nhk-radio-news".toList
    (by decide) (Or.inl rfl)

